import Mathlib

/-!
Verification of the digest/algorithm subsystem of image-spec-rs
(src/image_digest/algorithm.rs, digest.rs, sha.rs).

Shallow embedding conventions:
* Bytes are naturals below 256; machine words are naturals reduced
  modulo 2 to the 32nd or 64th power at every arithmetic step.
* A Rust function that can panic is embedded with an Option result;
  the value none models the panic, some models a normal return.
* A Rust Result is embedded as Except.
* Functions that the theorems evaluate on concrete inputs are written
  by structural recursion (a fuel argument bounded by the list length
  where the Rust loop is not structural), so that the kernel can
  reduce them.
* The external hash crates (sha2, blake3) used by algorithm.rs are
  embedded as full Lean implementations of SHA-2 (FIPS 180-4) and
  BLAKE3, validated below against the test vectors recorded in the
  repository tests.
-/

set_option maxRecDepth 100000

namespace ImageSpec

/-- Lowercase hex digit for a value below 16. -/
def hexDigit (n : Nat) : Char :=
  "0123456789abcdef".data.getD n '0'

/-- Lowercase hex encoding of a byte list, two digits per byte.
Models the hex::encode call in algorithm.rs. -/
def hexEncode (bs : List Nat) : String :=
  String.mk (bs.foldr (fun b acc => hexDigit (b / 16) :: hexDigit (b % 16) :: acc) [])

/-- Splits a list into consecutive chunks of size n (last may be
shorter). The fuel argument is a bound on the number of chunks,
instantiated with the list length so recursion is structural. -/
def chunksGo (n : Nat) : Nat → List Nat → List (List Nat)
  | 0, _ => []
  | _ + 1, [] => []
  | fuel + 1, l@(_ :: _) => l.take n :: chunksGo n fuel (l.drop n)

/-- Chunks of size n of a list; empty list gives no chunks. -/
def chunksOf (n : Nat) (l : List Nat) : List (List Nat) :=
  chunksGo n l.length l

namespace Blake3

/-- BLAKE3 initialization vector (identical to the SHA-256 IV),
written in decimal. -/
def IV : List Nat :=
  [1779033703, 3144134277, 1013904242, 2773480762,
   1359893119, 2600822924, 528734635, 1541459225]

/-- BLAKE3 message word permutation applied between rounds. -/
def PERM : List Nat := [2, 6, 3, 10, 7, 0, 4, 13, 1, 11, 12, 5, 9, 14, 15, 8]

/-- Addition modulo 2 to the 32nd power. -/
def add32 (a b : Nat) : Nat := (a + b) % 4294967296

/-- Right rotation of a 32-bit word by n bits. -/
def rotr32 (x n : Nat) : Nat :=
  ((x >>> n) ||| (x <<< (32 - n))) &&& 4294967295

/-- The BLAKE3 quarter-round g acting on state positions a b c d with
message words mx my. -/
def g (v : List Nat) (a b c d mx my : Nat) : List Nat :=
  let va := add32 (add32 (v.getD a 0) (v.getD b 0)) mx
  let vd := rotr32 ((v.getD d 0) ^^^ va) 16
  let vc := add32 (v.getD c 0) vd
  let vb := rotr32 ((v.getD b 0) ^^^ vc) 12
  let va2 := add32 (add32 va vb) my
  let vd2 := rotr32 (vd ^^^ va2) 8
  let vc2 := add32 vc vd2
  let vb2 := rotr32 (vb ^^^ vc2) 7
  ((((v.set a va2).set b vb2).set c vc2).set d vd2)

/-- One BLAKE3 round: column step then diagonal step. -/
def roundFn (v m : List Nat) : List Nat :=
  let mi := fun i => m.getD i 0
  let v := g v 0 4 8 12 (mi 0) (mi 1)
  let v := g v 1 5 9 13 (mi 2) (mi 3)
  let v := g v 2 6 10 14 (mi 4) (mi 5)
  let v := g v 3 7 11 15 (mi 6) (mi 7)
  let v := g v 0 5 10 15 (mi 8) (mi 9)
  let v := g v 1 6 11 12 (mi 10) (mi 11)
  let v := g v 2 7 8 13 (mi 12) (mi 13)
  g v 3 4 9 14 (mi 14) (mi 15)

/-- Message permutation between rounds. -/
def permute (m : List Nat) : List Nat := PERM.map (fun i => m.getD i 0)

/-- The BLAKE3 compression function, truncated output: the first 8
words of the 16-word output state, each v i xor v (i+8). -/
def compress (cv block : List Nat) (counter blockLen flags : Nat) : List Nat :=
  let st0 := cv ++ IV.take 4 ++
    [counter % 4294967296, (counter >>> 32) % 4294967296, blockLen, flags]
  let p := (List.range 7).foldl (fun q _ => (roundFn q.1 q.2, permute q.2)) (st0, block)
  (List.range 8).map (fun i => (p.1.getD i 0) ^^^ (p.1.getD (i + 8) 0))

/-- Little-endian 32-bit words of a 64-byte block (shorter blocks are
zero padded). -/
def blockWords (block : List Nat) : List Nat :=
  (List.range 16).map (fun j =>
    block.getD (4 * j) 0 + 256 * block.getD (4 * j + 1) 0 +
    65536 * block.getD (4 * j + 2) 0 + 16777216 * block.getD (4 * j + 3) 0)

/-- The 64-byte blocks of one chunk; an empty chunk still has one
(empty) block. -/
def chunkBlocks (data : List Nat) : List (List Nat) :=
  if data.isEmpty then [[]] else chunksOf 64 data

/-- Chaining value of one chunk (at most 1024 bytes): fold the
compression function over the blocks with CHUNK_START on the first
block, CHUNK_END on the last, and ROOT on the last when this chunk is
the root of the tree. -/
def chunkCV (data : List Nat) (counter : Nat) (root : Bool) : List Nat :=
  let blocks := chunkBlocks data
  let n := blocks.length
  (List.range n).foldl
    (fun cv i =>
      let blk := blocks.getD i []
      let flags := (if i = 0 then 1 else 0) |||
                   (if i = n - 1 then 2 else 0) |||
                   (if root && i = n - 1 then 8 else 0)
      compress cv (blockWords blk) counter blk.length flags)
    IV

/-- Chaining value of a subtree of the BLAKE3 chunk tree. The left
subtree takes the largest power of two of chunks that is at most the
chunk count minus one; parents compress the two child values with the
PARENT flag (and ROOT at the top). The fuel argument is a bound on the
recursion depth, instantiated with the byte length. -/
def subtreeGo : Nat → List Nat → Nat → Bool → List Nat
  | 0, data, counter, root => chunkCV data counter root
  | fuel + 1, data, counter, root =>
    if data.length ≤ 1024 then chunkCV data counter root
    else
      let n := (data.length + 1023) / 1024
      let k := 2 ^ Nat.log2 (n - 1)
      let l := subtreeGo fuel (data.take (1024 * k)) counter false
      let r := subtreeGo fuel (data.drop (1024 * k)) (counter + k) false
      compress IV (l ++ r) 0 64 (4 + if root then 8 else 0)

/-- Little-endian bytes of a list of 32-bit words. -/
def wordsToBytesLE (ws : List Nat) : List Nat :=
  ws.foldr (fun w acc =>
    (w % 256) :: (w / 256 % 256) :: (w / 65536 % 256) :: (w / 16777216 % 256) :: acc) []

/-- BLAKE3 hash (default 32-byte output) of a byte list. Models the
blake3 crate used by algorithm.rs; validated against the repository
test vector for the input hello. -/
def blake3Hash (data : List Nat) : List Nat :=
  wordsToBytesLE (subtreeGo data.length data 0 true)

end Blake3

namespace Sha2

/-- SHA-256 round constants (FIPS 180-4), written in decimal. -/
def K256 : List Nat :=
  [1116352408, 1899447441, 3049323471, 3921009573, 961987163,
   1508970993, 2453635748, 2870763221, 3624381080, 310598401,
   607225278, 1426881987, 1925078388, 2162078206, 2614888103,
   3248222580, 3835390401, 4022224774, 264347078, 604807628,
   770255983, 1249150122, 1555081692, 1996064986, 2554220882,
   2821834349, 2952996808, 3210313671, 3336571891, 3584528711,
   113926993, 338241895, 666307205, 773529912, 1294757372,
   1396182291, 1695183700, 1986661051, 2177026350, 2456956037,
   2730485921, 2820302411, 3259730800, 3345764771, 3516065817,
   3600352804, 4094571909, 275423344, 430227734, 506948616,
   659060556, 883997877, 958139571, 1322822218, 1537002063,
   1747873779, 1955562222, 2024104815, 2227730452, 2361852424,
   2428436474, 2756734187, 3204031479, 3329325298]

/-- SHA-256 initial hash value, written in decimal. -/
def H256 : List Nat :=
  [1779033703, 3144134277, 1013904242, 2773480762,
   1359893119, 2600822924, 528734635, 1541459225]

/-- SHA-384 and SHA-512 round constants (FIPS 180-4), in decimal. -/
def K512 : List Nat :=
  [4794697086780616226, 8158064640168781261, 13096744586834688815,
   16840607885511220156, 4131703408338449720, 6480981068601479193,
   10538285296894168987, 12329834152419229976, 15566598209576043074,
   1334009975649890238, 2608012711638119052, 6128411473006802146,
   8268148722764581231, 9286055187155687089, 11230858885718282805,
   13951009754708518548, 16472876342353939154, 17275323862435702243,
   1135362057144423861, 2597628984639134821, 3308224258029322869,
   5365058923640841347, 6679025012923562964, 8573033837759648693,
   10970295158949994411, 12119686244451234320, 12683024718118986047,
   13788192230050041572, 14330467153632333762, 15395433587784984357,
   489312712824947311, 1452737877330783856, 2861767655752347644,
   3322285676063803686, 5560940570517711597, 5996557281743188959,
   7280758554555802590, 8532644243296465576, 9350256976987008742,
   10552545826968843579, 11727347734174303076, 12113106623233404929,
   14000437183269869457, 14369950271660146224, 15101387698204529176,
   15463397548674623760, 17586052441742319658, 1182934255886127544,
   1847814050463011016, 2177327727835720531, 2830643537854262169,
   3796741975233480872, 4115178125766777443, 5681478168544905931,
   6601373596472566643, 7507060721942968483, 8399075790359081724,
   8693463985226723168, 9568029438360202098, 10144078919501101548,
   10430055236837252648, 11840083180663258601, 13761210420658862357,
   14299343276471374635, 14566680578165727644, 15097957966210449927,
   16922976911328602910, 17689382322260857208, 500013540394364858,
   748580250866718886, 1242879168328830382, 1977374033974150939,
   2944078676154940804, 3659926193048069267, 4368137639120453308,
   4836135668995329356, 5532061633213252278, 6448918945643986474,
   6902733635092675308, 7801388544844847127]

/-- SHA-512 initial hash value, written in decimal. -/
def H512 : List Nat :=
  [7640891576956012808, 13503953896175478587, 4354685564936845355,
   11912009170470909681, 5840696475078001361, 11170449401992604703,
   2270897969802886507, 6620516959819538809]

/-- SHA-384 initial hash value, written in decimal. -/
def H384 : List Nat :=
  [14680500436340154072, 7105036623409894663, 10473403895298186519,
   1526699215303891257, 7436329637833083697, 10282925794625328401,
   15784041429090275239, 5167115440072839076]

/-- Parameters of one member of the SHA-2 family: word size in bits,
block size in bytes, size of the length field in bytes, number of
rounds, round constants, initial hash value, the two message-schedule
sigma rotation triples (rotation, rotation, shift) and the two
compression Sigma rotation triples. -/
structure ShaParams where
  w : Nat
  blockSize : Nat
  lenBytes : Nat
  rounds : Nat
  K : List Nat
  IV : List Nat
  s0 : Nat × Nat × Nat
  s1 : Nat × Nat × Nat
  S0 : Nat × Nat × Nat
  S1 : Nat × Nat × Nat

/-- Right rotation of a w-bit word by n bits. -/
def rotrW (w n x : Nat) : Nat := ((x >>> n) ||| (x <<< (w - n))) &&& (2 ^ w - 1)

/-- Message-schedule sigma function: two rotations and a shift. -/
def smallSigma (w : Nat) (t : Nat × Nat × Nat) (x : Nat) : Nat :=
  rotrW w t.1 x ^^^ rotrW w t.2.1 x ^^^ (x >>> t.2.2)

/-- Compression Sigma function: three rotations. -/
def bigSigma (w : Nat) (t : Nat × Nat × Nat) (x : Nat) : Nat :=
  rotrW w t.1 x ^^^ rotrW w t.2.1 x ^^^ rotrW w t.2.2 x

/-- Big-endian bytes (n of them) of a value. -/
def beBytes (n v : Nat) : List Nat :=
  (List.range n).map (fun i => (v >>> (8 * (n - 1 - i))) % 256)

/-- FIPS 180-4 padding: a 0x80 byte, zeros, then the bit length. -/
def shaPad (p : ShaParams) (msg : List Nat) : List Nat :=
  let L := msg.length
  let padLen := (p.blockSize - (L + 1 + p.lenBytes) % p.blockSize) % p.blockSize
  msg ++ 128 :: (List.replicate padLen 0 ++ beBytes p.lenBytes (8 * L))

/-- Big-endian word number j of a block. -/
def beWordAt (wb : Nat) (blk : List Nat) (j : Nat) : Nat :=
  (List.range wb).foldl (fun acc i => acc * 256 + blk.getD (wb * j + i) 0) 0

/-- The message schedule W of one block. -/
def schedule (p : ShaParams) (blk : List Nat) : List Nat :=
  let M := 2 ^ p.w
  let W0 := (List.range 16).map (beWordAt (p.w / 8) blk)
  (List.range (p.rounds - 16)).foldl
    (fun W _ =>
      let t := W.length
      W ++ [(W.getD (t - 16) 0 + smallSigma p.w p.s0 (W.getD (t - 15) 0) +
             W.getD (t - 7) 0 + smallSigma p.w p.s1 (W.getD (t - 2) 0)) % M])
    W0

/-- The SHA-2 block compression function over the running hash value. -/
def shaCompress (p : ShaParams) (H : List Nat) (blk : List Nat) : List Nat :=
  let M := 2 ^ p.w
  let W := schedule p blk
  let st := (List.range p.rounds).foldl
    (fun st t =>
      let a := st.getD 0 0
      let b := st.getD 1 0
      let c := st.getD 2 0
      let d := st.getD 3 0
      let e := st.getD 4 0
      let f := st.getD 5 0
      let gg := st.getD 6 0
      let h := st.getD 7 0
      let ch := (e &&& f) ^^^ ((e ^^^ (M - 1)) &&& gg)
      let temp1 := (h + bigSigma p.w p.S1 e + ch + p.K.getD t 0 + W.getD t 0) % M
      let maj := (a &&& b) ^^^ (a &&& c) ^^^ (b &&& c)
      let temp2 := (bigSigma p.w p.S0 a + maj) % M
      [(temp1 + temp2) % M, a, b, c, (d + temp1) % M, e, f, gg])
    H
  (List.range 8).map (fun i => (H.getD i 0 + st.getD i 0) % M)

/-- A SHA-2 hash: pad, compress block by block, truncate the
big-endian output to outBytes. -/
def shaHash (p : ShaParams) (outBytes : Nat) (msg : List Nat) : List Nat :=
  let H := (chunksOf p.blockSize (shaPad p msg)).foldl (shaCompress p) p.IV
  (H.foldr (fun w acc => beBytes (p.w / 8) w ++ acc) []).take outBytes

/-- SHA-256 parameters. -/
def p256 : ShaParams :=
  ⟨32, 64, 8, 64, K256, H256, (7, 18, 3), (17, 19, 10), (2, 13, 22), (6, 11, 25)⟩

/-- SHA-384 parameters. -/
def p384 : ShaParams :=
  ⟨64, 128, 16, 80, K512, H384, (1, 8, 7), (19, 61, 6), (28, 34, 39), (14, 18, 41)⟩

/-- SHA-512 parameters. -/
def p512 : ShaParams :=
  ⟨64, 128, 16, 80, K512, H512, (1, 8, 7), (19, 61, 6), (28, 34, 39), (14, 18, 41)⟩

/-- SHA-256 of a byte list. Models the sha2 crate used by
algorithm.rs; validated against the repository test vector for the
input hello. -/
def sha256 : List Nat → List Nat := shaHash p256 32

/-- SHA-384 of a byte list. Models the sha2 crate. -/
def sha384 : List Nat → List Nat := shaHash p384 48

/-- SHA-512 of a byte list. Models the sha2 crate. -/
def sha512 : List Nat → List Nat := shaHash p512 64

end Sha2

/-- Algorithm name constant SHA256 of algorithm.rs. -/
def SHA256 : String := "sha256"

/-- Algorithm name constant SHA384 of algorithm.rs. -/
def SHA384 : String := "sha384"

/-- Algorithm name constant SHA512 of algorithm.rs. -/
def SHA512 : String := "sha512"

/-- Algorithm name constant BLAKE3 of algorithm.rs. -/
def BLAKE3 : String := "blake3"

/-- Canonical algorithm constant of algorithm.rs. -/
def CANONICAL : String := SHA256

/-- The Algorithm struct of algorithm.rs: a name and a bit size
(the Rust field bitsize has type isize, embedded as Int). -/
structure Algorithm where
  name : String
  bitsize : Int
deriving DecidableEq

namespace Algorithm

/-- Algorithm::new of algorithm.rs. -/
def new (name : String) (size : Int) : Algorithm := ⟨name, size⟩

/-- Algorithm::available of algorithm.rs: always true. -/
def available (_ : Algorithm) : Bool := true

/-- Algorithm::string of algorithm.rs: returns the name. -/
def string (a : Algorithm) : String := a.name

/-- Algorithm::size of algorithm.rs: returns the bitsize field as
written in the source (the trait comment promises a byte length). -/
def size (a : Algorithm) : Int := a.bitsize

/-- Algorithm::set of algorithm.rs: recognizes only the three SHA-2
names; any other name (including blake3) is an error. -/
def set (_ : Algorithm) (name : String) : Except String Algorithm :=
  if name = SHA256 then Except.ok (new SHA256 256)
  else if name = SHA384 then Except.ok (new SHA384 384)
  else if name = SHA512 then Except.ok (new SHA512 512)
  else Except.error "Unsupported algorithm"

/-- The streaming digester implementations reachable from
Algorithm::digester of algorithm.rs. -/
inductive DigesterKind where
  | sha256
  | sha384
  | sha512
deriving DecidableEq

/-- Algorithm::digester of algorithm.rs: a streaming hasher for the
three SHA-2 names; none models the panic Unsupported algorithm on
every other name, blake3 included. -/
def digester (a : Algorithm) : Option DigesterKind :=
  if a.name = SHA256 then some DigesterKind.sha256
  else if a.name = SHA384 then some DigesterKind.sha384
  else if a.name = SHA512 then some DigesterKind.sha512
  else none

/-- Algorithm::hash of algorithm.rs: delegates to digester. -/
def hash (a : Algorithm) : Option DigesterKind := a.digester

/-- Algorithm::encode of algorithm.rs: dispatch on the name to the
matching hash primitive and hex encode; none models the panic on an
unknown name. -/
def encode (a : Algorithm) (bytes : List Nat) : Option String :=
  if a.name = SHA256 then some (hexEncode (Sha2.sha256 bytes))
  else if a.name = SHA384 then some (hexEncode (Sha2.sha384 bytes))
  else if a.name = SHA512 then some (hexEncode (Sha2.sha512 bytes))
  else if a.name = BLAKE3 then some (hexEncode (Blake3.blake3Hash bytes))
  else none

/-- Algorithm::from_bytes of algorithm.rs: same dispatch and body as
encode. -/
def from_bytes (a : Algorithm) (bytes : List Nat) : Option String :=
  if a.name = SHA256 then some (hexEncode (Sha2.sha256 bytes))
  else if a.name = SHA384 then some (hexEncode (Sha2.sha384 bytes))
  else if a.name = SHA512 then some (hexEncode (Sha2.sha512 bytes))
  else if a.name = BLAKE3 then some (hexEncode (Blake3.blake3Hash bytes))
  else none

end Algorithm

/-- One read call on a reader: ok with a nonempty chunk delivers
bytes, ok with the empty chunk signals end of stream, error models a
failed read. A reader is a finite list of such results; reading past
the end also signals end of stream. -/
abbrev ReadResult := Except Unit (List Nat)

/-- The bytes absorbed by the chunked read loop of
Algorithm::from_reader and Algorithm::from_file in algorithm.rs: the
loop breaks at the first read error or at the first empty read, so
exactly the chunks before that point are fed to the digest. -/
def readAll : List ReadResult → List Nat
  | [] => []
  | Except.error _ :: _ => []
  | Except.ok c :: rest => if c.isEmpty then [] else c ++ readAll rest

namespace Algorithm

/-- Algorithm::from_reader of algorithm.rs: feeds the chunks absorbed
by the loop to the dispatched hash and hex encodes the finalized
digest. A read error only breaks the loop (the Err arm of the match
on read is a break); the function still returns an encoded digest of
the bytes read so far. The none result models the panic on an unknown
algorithm name. -/
def from_reader (a : Algorithm) (reads : List ReadResult) : Option String :=
  if a.name = SHA256 then some (hexEncode (Sha2.sha256 (readAll reads)))
  else if a.name = SHA384 then some (hexEncode (Sha2.sha384 (readAll reads)))
  else if a.name = SHA512 then some (hexEncode (Sha2.sha512 (readAll reads)))
  else if a.name = BLAKE3 then some (hexEncode (Blake3.blake3Hash (readAll reads)))
  else none

/-- Algorithm::from_file of algorithm.rs: the outer Except models the
Result return, whose error case comes only from File::open (the ?
operator); a file that opens successfully behaves as from_reader on
its chunk stream, read errors inside the loop included. The match on
the algorithm name happens first in the source, so an unknown name
panics (none) regardless of the file argument. -/
def from_file (a : Algorithm) (file : Except Unit (List ReadResult)) :
    Option (Except Unit String) :=
  if a.name = SHA256 ∨ a.name = SHA384 ∨ a.name = SHA512 ∨ a.name = BLAKE3 then
    match file with
    | Except.error e => some (Except.error e)
    | Except.ok reads => (from_reader a reads).map Except.ok
  else none

/-- Lowercase hex character predicate, the class 0-9a-f. -/
def isHexLower (c : Char) : Bool :=
  (('0' ≤ c && c ≤ '9') || ('a' ≤ c && c ≤ 'f'))

/-- Algorithm::validate of algorithm.rs: the regex built from the
format string is anchored lowercase hex of exactly bitsize / 4
characters. A negative bitsize makes Regex::new fail and the unwrap
panic, modeled as none. -/
def validate (a : Algorithm) (s : String) : Option Bool :=
  if a.bitsize < 0 then none
  else some (decide (s.data.length = (a.bitsize / 4).toNat) && s.data.all isHexLower)

end Algorithm

/-- Lookup of a name in an association list of name and size pairs;
models HashMap::get of the registry in algorithm.rs. -/
def lookupName : List (String × Int) → String → Option Int
  | [], _ => none
  | (a, b) :: l, n => if n = a then some b else lookupName l n

/-- The Algorithms registry of algorithm.rs: a map from algorithm
name to bit size, embedded as an association list (the Rust HashMap
is observed only through get and insert of distinct keys). -/
structure Algorithms where
  algorithms : List (String × Int)
deriving DecidableEq

namespace Algorithms

/-- Algorithms::register_algorithm of algorithm.rs: false and no
change when the name is present, true and an insertion when absent. -/
def register_algorithm (r : Algorithms) (name : String) (size : Int) :
    Bool × Algorithms :=
  match lookupName r.algorithms name with
  | some _ => (false, r)
  | none => (true, ⟨r.algorithms ++ [(name, size)]⟩)

/-- Algorithms::new of algorithm.rs: registers sha256, sha384,
sha512 and blake3. -/
def new : Algorithms :=
  let r : Algorithms := ⟨[]⟩
  let r := (r.register_algorithm SHA256 256).2
  let r := (r.register_algorithm SHA384 384).2
  let r := (r.register_algorithm SHA512 512).2
  let r := (r.register_algorithm BLAKE3 256).2
  r

/-- Algorithms::get_algorithm of algorithm.rs. -/
def get_algorithm (r : Algorithms) (name : String) : Option Algorithm :=
  (lookupName r.algorithms name).map (fun s => Algorithm.new name s)

end Algorithms

namespace ShaRs

/-- Sha256::size of sha.rs: 256 / 8. -/
def Sha256.size : Nat := 256 / 8

/-- Sha384::size of sha.rs: 384 / 8. -/
def Sha384.size : Nat := 384 / 8

/-- Sha512::size of sha.rs, as written in the source: 512 / 64. -/
def Sha512.size : Nat := 512 / 64

end ShaRs

/-- The Digest struct of digest.rs: an algorithm name and the full
digest string. -/
structure Digest where
  name : String
  digest : String
deriving DecidableEq

/-- Position of the first colon of a character list: the characters
before it and the characters after it, or none when there is no
colon. Models str::find on the separator in digest.rs. -/
def splitAtColon : List Char → Option (List Char × List Char)
  | [] => none
  | c :: cs =>
    if c = ':' then some ([], cs)
    else (splitAtColon cs).map (fun p => (c :: p.1, p.2))

namespace Digest

/-- Digest::new of digest.rs: stores the algorithm name and the
string name colon digest. -/
def new (alg : Algorithm) (digest : String) : Digest :=
  ⟨alg.name, alg.name ++ ":" ++ digest⟩

/-- Digest::string of digest.rs. -/
def string (d : Digest) : String := d.digest

/-- Digest::algorithm of digest.rs: the substring before the first
colon. Digest::sep_index unwraps str::find, so a digest string with
no colon panics, modeled as none. -/
def algorithm (d : Digest) : Option String :=
  (splitAtColon d.digest.data).map (fun p => String.mk p.1)

/-- Digest::encoded of digest.rs: the substring after the first
colon; no colon panics, modeled as none. -/
def encoded (d : Digest) : Option String :=
  (splitAtColon d.digest.data).map (fun p => String.mk p.2)

end Digest

/-- Character class a-z0-9 of the digest grammar regex. -/
def isLowerAlnum (c : Char) : Bool :=
  (('a' ≤ c && c ≤ 'z') || ('0' ≤ c && c ≤ '9'))

/-- Separator class of the algorithm component of the grammar. -/
def isSepChar (c : Char) : Bool :=
  (c = '.' || c = '+' || c = '_' || c = '-')

/-- Character class of the encoded component of the grammar:
alphanumerics and equals, underscore, hyphen. -/
def isEncChar (c : Char) : Bool :=
  (('a' ≤ c && c ≤ 'z') || ('A' ≤ c && c ≤ 'Z') || ('0' ≤ c && c ≤ '9') ||
   c = '=' || c = '_' || c = '-')

/-- Recognizer of the algorithm component of the digest grammar:
nonempty groups of a-z0-9 separated by single separator characters.
The flag is true when the next character must start a new group. -/
def algSegF : Bool → List Char → Bool
  | true, [] => false
  | true, c :: cs => isLowerAlnum c && algSegF false cs
  | false, [] => true
  | false, c :: cs =>
    if isLowerAlnum c then algSegF false cs
    else isSepChar c && algSegF true cs

/-- The anchored digest grammar regex of Digest::validate in
digest.rs: algorithm component, one colon, then a nonempty run of
encoded characters (a second colon cannot match because the colon is
not an encoded character). -/
def validDigestGrammar (s : String) : Bool :=
  match splitAtColon s.data with
  | none => false
  | some (pre, post) => algSegF true pre && !post.isEmpty && post.all isEncChar

/-- Digest::validate of digest.rs: computes the algorithm component
(none models the panic when there is no colon), requires it to be one
of the three SHA-2 names, then matches the full digest string against
the generic grammar. The error strings are those of the source. -/
def Digest.validate (d : Digest) : Option (Except String Unit) :=
  match splitAtColon d.digest.data with
  | none => none
  | some (pre, _) =>
    if String.mk pre = SHA256 ∨ String.mk pre = SHA384 ∨ String.mk pre = SHA512 then
      if validDigestGrammar d.digest then some (Except.ok ())
      else some (Except.error "invalid checksum digest format")
    else some (Except.error "invalid checksum digest algorithm")

/-! Helper lemmas about the embedding. -/

-- Decidable equality of Except values, needed to evaluate the
-- embedded fallible operations inside decide.
deriving instance DecidableEq for Except

/-- Rebuilding a string from its character list is the identity. -/
theorem stringMkData (s : String) : String.mk s.data = s := rfl

/-- The character list of an appended string. -/
theorem stringDataAppend (s t : String) : (s ++ t).data = s.data ++ t.data := by
  cases s; cases t; rfl

/-- A character list without a colon has no split. -/
theorem splitAtColon_of_not_mem (cs : List Char) (h : ':' ∉ cs) :
    splitAtColon cs = none := by
  induction cs with
  | nil => rfl
  | cons c cs ih =>
    have h1 : ¬c = ':' := fun hc => h (by simp [hc])
    have h2 : ':' ∉ cs := fun hc => h (by simp [hc])
    simp [splitAtColon, h1, ih h2]

/-- A successful split decomposes the list at its first colon. -/
theorem splitAtColon_eq_some (cs pre post : List Char)
    (h : splitAtColon cs = some (pre, post)) :
    cs = pre ++ ':' :: post ∧ ':' ∉ pre := by
  induction cs generalizing pre post with
  | nil => simp [splitAtColon] at h
  | cons c cs ih =>
    by_cases hc : c = ':'
    · subst hc
      rw [show splitAtColon (':' :: cs) = some ([], cs) from by simp [splitAtColon]] at h
      have h3 : (([] : List Char), cs) = (pre, post) := by simpa using h
      injection h3 with h4 h5
      subst h4; subst h5
      simp
    · simp only [splitAtColon, if_neg hc] at h
      cases hp : splitAtColon cs with
      | none => rw [hp] at h; simp at h
      | some p =>
        rw [hp] at h
        obtain ⟨p1, p2⟩ := p
        have h3 : (c :: p1, p2) = (pre, post) := by simpa using h
        injection h3 with h4 h5
        subst h4; subst h5
        obtain ⟨hcs, hnm⟩ := ih p1 p2 hp
        subst hcs
        refine ⟨rfl, ?_⟩
        intro hm
        rcases List.mem_cons.mp hm with h6 | h6
        · exact hc h6.symm
        · exact hnm h6

/-- Splitting a list built around its first colon. -/
theorem splitAtColon_append (pre post : List Char) (h : ':' ∉ pre) :
    splitAtColon (pre ++ ':' :: post) = some (pre, post) := by
  induction pre with
  | nil => simp [splitAtColon]
  | cons c cs ih =>
    have h1 : ¬c = ':' := fun hc => h (by simp [hc])
    have h2 : ':' ∉ cs := fun hc => h (by simp [hc])
    simp [splitAtColon, h1, ih h2]

/-- The read loop absorbs exactly the successful nonempty chunks
before the first error. -/
theorem readAll_prefix (pre : List (List Nat)) (rest : List ReadResult)
    (h : ∀ c ∈ pre, c ≠ []) :
    readAll (pre.map Except.ok ++ Except.error () :: rest) = pre.flatten := by
  induction pre with
  | nil => rfl
  | cons c cs ih =>
    have hc : c ≠ [] := h c (by simp)
    cases c with
    | nil => exact absurd rfl hc
    | cons b bs =>
      have hrest : ∀ x ∈ cs, x ≠ [] := fun x hx => h x (by simp [hx])
      simp [readAll, ih hrest]

/-- from_reader is from_bytes of the bytes absorbed by the loop. -/
theorem from_reader_eq_from_bytes (a : Algorithm) (reads : List ReadResult) :
    a.from_reader reads = a.from_bytes (readAll reads) := rfl

/-- Lookup after appending a fresh key finds the new entry. -/
theorem lookupName_append_self (l : List (String × Int)) (n : String) (s : Int)
    (h : lookupName l n = none) : lookupName (l ++ [(n, s)]) n = some s := by
  induction l with
  | nil => simp [lookupName]
  | cons p l ih =>
    obtain ⟨a, b⟩ := p
    by_cases hna : n = a
    · subst hna; simp [lookupName] at h
    · simp [lookupName, hna] at h ⊢
      exact ih h

/-- Lookup of a different key is unchanged by appending an entry. -/
theorem lookupName_append_other (l : List (String × Int)) (m n : String) (s : Int)
    (h : ¬m = n) : lookupName (l ++ [(n, s)]) m = lookupName l m := by
  induction l with
  | nil => simp [lookupName, h]
  | cons p l ih =>
    obtain ⟨a, b⟩ := p
    by_cases hma : m = a
    · subst hma; simp [lookupName]
    · simp [lookupName, hma, ih]

/-- Digest::validate unfolded on a successful split of the digest
string at its first colon. -/
theorem validate_of_split (d : Digest) (pre post : List Char)
    (h : splitAtColon d.digest.data = some (pre, post)) :
    d.validate =
      if String.mk pre = SHA256 ∨ String.mk pre = SHA384 ∨ String.mk pre = SHA512 then
        if validDigestGrammar d.digest then some (Except.ok ())
        else some (Except.error "invalid checksum digest format")
      else some (Except.error "invalid checksum digest algorithm") := by
  unfold Digest.validate
  rw [h]

/-- A colon in the list guarantees a successful split. -/
theorem splitAtColon_isSome_of_mem (cs : List Char) (h : ':' ∈ cs) :
    (splitAtColon cs).isSome := by
  induction cs with
  | nil => simp at h
  | cons c cs ih =>
    by_cases hc : c = ':'
    · simp [splitAtColon, hc]
    · have hm : ':' ∈ cs := by
        rcases List.mem_cons.mp h with h1 | h1
        · exact absurd h1.symm hc
        · exact h1
      simp [splitAtColon, hc, Option.isSome_map]
      exact ih hm

/-! Validation of the hash embeddings against the vectors recorded in
the repository tests (encode, encode_blake3) and in the spec. -/

example : ImageSpec.hexEncode (ImageSpec.Blake3.blake3Hash [104, 101, 108, 108, 111]) =
    "ea8f163db38682925e4491c5e58d4bb3506ef8c14eb78a86e908c5624a67200f" := by decide

example : ImageSpec.hexEncode (ImageSpec.Sha2.sha256 [104, 101, 108, 108, 111]) =
    "2cf24dba5fb0a30e26e83b2ac5b9e29e1b161e5c1fa7425e73043362938b9824" := by decide

example : ImageSpec.hexEncode (ImageSpec.Sha2.sha256 []) =
    "e3b0c44298fc1c149afbf4c8996fb92427ae41e4649b934ca495991b7852b855" := by decide

/-! Claim theorems. -/

/-- C1 (counterexample): with blake3, an algorithm of the default
set, and a reader that delivers the bytes of hel and then fails,
from_reader returns a digest string, and it is exactly the digest of
the bytes read before the error; no I/O error is surfaced. -/
theorem c1_read_error_returns_truncated_digest :
    Algorithm.from_reader (Algorithm.new BLAKE3 256)
        [Except.ok [104, 101, 108], Except.error (), Except.ok [108, 111]] =
      some "3121c5bb1b9193123447ac7cfda042f67f967e7a8cf5c12e7570e25529746e4a" ∧
    Algorithm.from_bytes (Algorithm.new BLAKE3 256) [104, 101, 108] =
      some "3121c5bb1b9193123447ac7cfda042f67f967e7a8cf5c12e7570e25529746e4a" := by
  constructor <;> decide

/-- C1 (amended): for every algorithm of the default set, a read
error silently ends the chunked loop: from_reader returns the digest
of the bytes read before the error, from_file behaves the same after
a successful open, and a digest string is returned rather than an I/O
error. -/
theorem c1_read_error_silently_truncates (name : String) (sz : Int)
    (hname : name = SHA256 ∨ name = SHA384 ∨ name = SHA512 ∨ name = BLAKE3)
    (pre : List (List Nat)) (rest : List ReadResult)
    (hpre : ∀ c ∈ pre, c ≠ []) :
    Algorithm.from_reader (Algorithm.new name sz)
        (pre.map Except.ok ++ Except.error () :: rest) =
      Algorithm.from_bytes (Algorithm.new name sz) pre.flatten ∧
    Algorithm.from_file (Algorithm.new name sz)
        (Except.ok (pre.map Except.ok ++ Except.error () :: rest)) =
      (Algorithm.from_bytes (Algorithm.new name sz) pre.flatten).map Except.ok ∧
    ∃ s, Algorithm.from_reader (Algorithm.new name sz)
        (pre.map Except.ok ++ Except.error () :: rest) = some s := by
  have hr : Algorithm.from_reader (Algorithm.new name sz)
      (pre.map Except.ok ++ Except.error () :: rest) =
      Algorithm.from_bytes (Algorithm.new name sz) pre.flatten := by
    rw [from_reader_eq_from_bytes, readAll_prefix pre rest hpre]
  refine ⟨hr, ?_, ?_⟩
  · have hname2 : (Algorithm.new name sz).name = SHA256 ∨
        (Algorithm.new name sz).name = SHA384 ∨
        (Algorithm.new name sz).name = SHA512 ∨
        (Algorithm.new name sz).name = BLAKE3 := hname
    unfold Algorithm.from_file
    rw [if_pos hname2]
    change Option.map Except.ok ((Algorithm.new name sz).from_reader
      (pre.map Except.ok ++ Except.error () :: rest)) = _
    rw [hr]
  · rw [hr]
    rcases hname with h | h | h | h <;> subst h <;> exact ⟨_, rfl⟩

/-- C1 (witness): the amended claim instantiated with blake3, the
chunk hel before the error, and a trailing chunk after it. -/
theorem c1_read_error_silently_truncates_witness :
    (BLAKE3 = SHA256 ∨ BLAKE3 = SHA384 ∨ BLAKE3 = SHA512 ∨ BLAKE3 = BLAKE3) ∧
    (∀ c ∈ [[104, 101, 108]], c ≠ ([] : List Nat)) ∧
    (Algorithm.from_reader (Algorithm.new BLAKE3 256)
        ([[104, 101, 108]].map Except.ok ++ Except.error () :: [Except.ok [108, 111]]) =
      Algorithm.from_bytes (Algorithm.new BLAKE3 256) [[104, 101, 108]].flatten ∧
     Algorithm.from_file (Algorithm.new BLAKE3 256)
        (Except.ok ([[104, 101, 108]].map Except.ok ++
          Except.error () :: [Except.ok [108, 111]])) =
      (Algorithm.from_bytes (Algorithm.new BLAKE3 256)
        [[104, 101, 108]].flatten).map Except.ok ∧
     ∃ s, Algorithm.from_reader (Algorithm.new BLAKE3 256)
        ([[104, 101, 108]].map Except.ok ++
          Except.error () :: [Except.ok [108, 111]]) = some s) :=
  ⟨by decide, by decide,
   c1_read_error_silently_truncates BLAKE3 256 (by decide) [[104, 101, 108]]
     [Except.ok [108, 111]] (by decide)⟩

/-- C2 (counterexample): on a Digest whose digest string has no
colon, the decomposition does not return a failure value: it panics
(none models the unwrap panic inside sep_index). -/
theorem c2_no_separator_panics :
    Digest.algorithm ⟨"sha256", "deadbeef"⟩ = none := by decide

/-- C2 (amended): for every Digest whose digest string contains no
colon, algorithm panics via the unwrap in sep_index instead of
returning a MalformedDigest failure. -/
theorem c2_algorithm_panics_without_colon (d : Digest)
    (h : ':' ∉ d.digest.data) : d.algorithm = none := by
  unfold Digest.algorithm
  rw [splitAtColon_of_not_mem _ h]
  rfl

/-- C2 (witness): the amended claim at a concrete digest. -/
theorem c2_algorithm_panics_without_colon_witness :
    (':' ∉ ("abcdef" : String).data) ∧
    Digest.algorithm ⟨"sha256", "abcdef"⟩ = none :=
  ⟨by decide, c2_algorithm_panics_without_colon ⟨"sha256", "abcdef"⟩ (by decide)⟩

/-- C3: the size operation does not return the byte length the spec
and the trait comment promise: Algorithm::size of algorithm.rs
returns the registered bit size (256, 384, 512 instead of 32, 48,
64), and Sha512::size of sha.rs evaluates 512 / 64 to 8 where its
siblings divide by 8. -/
theorem c3_size_returns_bits_not_bytes :
    ((Algorithms.new.get_algorithm SHA256).map Algorithm.size = some 256) ∧
    ((Algorithms.new.get_algorithm SHA384).map Algorithm.size = some 384) ∧
    ((Algorithms.new.get_algorithm SHA512).map Algorithm.size = some 512) ∧
    ShaRs.Sha256.size = 32 ∧ ShaRs.Sha384.size = 48 ∧ ShaRs.Sha512.size = 8 := by
  refine ⟨by decide, by decide, by decide, by decide, by decide, by decide⟩

/-- C4 (counterexample): from_bytes with blake3 on hello does not
return the string of the claim, which has 63 hex characters, not
64. -/
theorem c4_spec_vector_is_wrong :
    Algorithm.from_bytes (Algorithm.new BLAKE3 256) [104, 101, 108, 108, 111] ≠
      some "ea8f163db38682925e4491c5e58d4bb3506ef8c14eb78a86e908c5624a67200" ∧
    ("ea8f163db38682925e4491c5e58d4bb3506ef8c14eb78a86e908c5624a67200" : String).length
      = 63 := by
  constructor <;> decide

/-- C4 (amended): from_bytes with blake3 on hello (bytes 104 101 108
108 111) returns the 64 hex character encoding recorded by the
repository test encode_blake3, ending in the letter f. -/
theorem c4_blake3_hello :
    Algorithm.from_bytes (Algorithm.new BLAKE3 256) [104, 101, 108, 108, 111] =
      some "ea8f163db38682925e4491c5e58d4bb3506ef8c14eb78a86e908c5624a67200f" ∧
    ("ea8f163db38682925e4491c5e58d4bb3506ef8c14eb78a86e908c5624a67200f" : String).length
      = 64 := by
  constructor <;> decide

/-- C5: registering an existing name returns false and leaves the
registry unchanged; registering a fresh name returns true, makes it
retrievable with the given size, and changes no other entry; and
sha256 is already present in the default registry, so registering it
again returns false and changes nothing. -/
theorem c5_register_contract (r : Algorithms) (n : String) (s : Int) :
    ((r.get_algorithm n).isSome → r.register_algorithm n s = (false, r)) ∧
    (r.get_algorithm n = none →
      (r.register_algorithm n s).1 = true ∧
      (r.register_algorithm n s).2.get_algorithm n = some (Algorithm.new n s) ∧
      ∀ m, ¬m = n → (r.register_algorithm n s).2.get_algorithm m = r.get_algorithm m) ∧
    Algorithms.new.register_algorithm SHA256 256 = (false, Algorithms.new) := by
  refine ⟨?_, ?_, by decide⟩
  · intro h
    cases hl : lookupName r.algorithms n with
    | none =>
      unfold Algorithms.get_algorithm at h
      rw [hl] at h
      simp at h
    | some v =>
      unfold Algorithms.register_algorithm
      rw [hl]
  · intro h
    have hl : lookupName r.algorithms n = none := by
      unfold Algorithms.get_algorithm at h
      cases hl2 : lookupName r.algorithms n with
      | none => rfl
      | some v => rw [hl2] at h; simp at h
    have hreg : r.register_algorithm n s = (true, ⟨r.algorithms ++ [(n, s)]⟩) := by
      unfold Algorithms.register_algorithm
      rw [hl]
    rw [hreg]
    refine ⟨rfl, ?_, ?_⟩
    · unfold Algorithms.get_algorithm
      rw [lookupName_append_self _ _ _ hl]
      rfl
    · intro m hm
      unfold Algorithms.get_algorithm
      rw [lookupName_append_other _ _ _ _ hm]

/-- C5 (witness): sha256 is present in the default registry and a
repeat registration returns false and changes nothing; md5 is absent
and registering it returns true and makes it retrievable. -/
theorem c5_register_contract_witness :
    ((Algorithms.new.get_algorithm SHA256).isSome = true) ∧
    (Algorithms.new.register_algorithm SHA256 256 = (false, Algorithms.new)) ∧
    (Algorithms.new.get_algorithm "md5" = none) ∧
    ((Algorithms.new.register_algorithm "md5" 128).1 = true) ∧
    ((Algorithms.new.register_algorithm "md5" 128).2.get_algorithm "md5" =
      some (Algorithm.new "md5" 128)) := by
  have h1 := (c5_register_contract Algorithms.new SHA256 256).1 (by decide)
  have h2 := (c5_register_contract Algorithms.new "md5" 128).2.1 (by decide)
  exact ⟨by decide, h1, by decide, h2.1, h2.2.1⟩

/-- C6: the generic Digest::validate accepts the digest sha256 colon
abcdefghijklmnopqrstuvwxyz0123456789 because the grammar permits any
nonempty run over its alphabet, while the strict per algorithm sha256
check rejects the same encoded segment, which is not 64 lowercase hex
characters. -/
theorem c6_generic_accepts_strict_rejects :
    Digest.validate ⟨"sha256", "sha256:abcdefghijklmnopqrstuvwxyz0123456789"⟩ =
      some (Except.ok ()) ∧
    Algorithm.validate (Algorithm.new SHA256 256)
      "abcdefghijklmnopqrstuvwxyz0123456789" = some false := by
  constructor <;> decide

/-- C7 (counterexample): a digest string with zero colons does not
fail validation with an error value: Digest::validate panics (none
models the unwrap panic reached through algorithm). -/
theorem c7_zero_colons_panic :
    Digest.validate ⟨"nocolon", "nocolon"⟩ = none := by decide

/-- C7 (amended): a digest string with more than one colon, or an
uppercase letter before the first colon, fails Digest::validate with
an error; a digest string with zero colons instead panics inside
validate (the unwrap in sep_index), modeled as none. -/
theorem c7_grammar_rejection (d : Digest) :
    (d.digest.data.count ':' = 0 → d.validate = none) ∧
    (2 ≤ d.digest.data.count ':' → ∃ m, d.validate = some (Except.error m)) ∧
    (∀ pre post, splitAtColon d.digest.data = some (pre, post) →
      (∃ c ∈ pre, 'A' ≤ c ∧ c ≤ 'Z') →
      d.validate = some (Except.error "invalid checksum digest algorithm")) := by
  refine ⟨?_, ?_, ?_⟩
  · intro h
    have hnm : ':' ∉ d.digest.data := List.count_eq_zero.mp h
    unfold Digest.validate
    rw [splitAtColon_of_not_mem _ hnm]
  · intro h
    cases hsplit : splitAtColon d.digest.data with
    | none =>
      exfalso
      have hmem : ':' ∈ d.digest.data := by
        by_contra hcon
        have h0 : d.digest.data.count ':' = 0 := List.count_eq_zero.mpr hcon
        omega
      have := splitAtColon_isSome_of_mem _ hmem
      rw [hsplit] at this
      simp at this
    | some p =>
      obtain ⟨pre, post⟩ := p
      obtain ⟨hcs, hnm⟩ := splitAtColon_eq_some _ _ _ hsplit
      have hcount : d.digest.data.count ':' =
          pre.count ':' + (post.count ':' + 1) := by
        rw [hcs]
        simp [List.count_append]
      have hpre0 : pre.count ':' = 0 := List.count_eq_zero.mpr hnm
      have hpost : ':' ∈ post := by
        by_contra hcon
        have h0 : post.count ':' = 0 := List.count_eq_zero.mpr hcon
        omega
      rw [validate_of_split d pre post hsplit]
      by_cases hmem : String.mk pre = SHA256 ∨ String.mk pre = SHA384 ∨
          String.mk pre = SHA512
      · rw [if_pos hmem]
        have hall : post.all isEncChar = false := by
          cases hv : post.all isEncChar with
          | false => rfl
          | true =>
            have h1 := List.all_eq_true.mp hv ':' hpost
            simp [isEncChar] at h1
        have hgram : validDigestGrammar d.digest = false := by
          unfold validDigestGrammar
          rw [hsplit]
          simp [hall]
        refine ⟨"invalid checksum digest format", ?_⟩
        simp [hgram]
      · rw [if_neg hmem]
        exact ⟨_, rfl⟩
  · intro pre post hsplit hup
    obtain ⟨c, hcmem, hA, hZ⟩ := hup
    rw [validate_of_split d pre post hsplit]
    have hnot : ¬(String.mk pre = SHA256 ∨ String.mk pre = SHA384 ∨
        String.mk pre = SHA512) := by
      intro hmem
      rcases hmem with hm | hm | hm
      · have hpre : pre = ("sha256" : String).data := congrArg String.data hm
        rw [hpre] at hcmem
        have hno : ∀ x ∈ ("sha256" : String).data, ¬('A' ≤ x ∧ x ≤ 'Z') := by decide
        exact hno c hcmem ⟨hA, hZ⟩
      · have hpre : pre = ("sha384" : String).data := congrArg String.data hm
        rw [hpre] at hcmem
        have hno : ∀ x ∈ ("sha384" : String).data, ¬('A' ≤ x ∧ x ≤ 'Z') := by decide
        exact hno c hcmem ⟨hA, hZ⟩
      · have hpre : pre = ("sha512" : String).data := congrArg String.data hm
        rw [hpre] at hcmem
        have hno : ∀ x ∈ ("sha512" : String).data, ¬('A' ≤ x ∧ x ≤ 'Z') := by decide
        exact hno c hcmem ⟨hA, hZ⟩
    rw [if_neg hnot]

/-- C7 (witness): the amended claim at three concrete digest strings:
zero colons panic, two colons give an error, an uppercase algorithm
letter gives the invalid algorithm error. -/
theorem c7_grammar_rejection_witness :
    (Digest.validate ⟨"a", "abc"⟩ = none) ∧
    (∃ m, Digest.validate ⟨"a", "sha256:a:b"⟩ = some (Except.error m)) ∧
    (Digest.validate ⟨"a", "Sha256:abc"⟩ =
      some (Except.error "invalid checksum digest algorithm")) := by
  refine ⟨(c7_grammar_rejection ⟨"a", "abc"⟩).1 (by decide),
          (c7_grammar_rejection ⟨"a", "sha256:a:b"⟩).2.1 (by decide),
          (c7_grammar_rejection ⟨"a", "Sha256:abc"⟩).2.2
            ("Sha256" : String).data ("abc" : String).data (by decide) ?_⟩
  exact ⟨'S', by decide, by decide, by decide⟩

/-- C8: building a Digest from an algorithm and an encoded segment
and decomposing it round trips: encoded returns the segment and
algorithm returns the algorithm name (stated for names without a
colon, which covers every well formed algorithm name). -/
theorem c8_roundtrip (name : String) (sz : Int) (e : String)
    (h1 : ':' ∉ name.data) (h2 : e ≠ "") (h3 : ':' ∉ e.data) :
    (Digest.new (Algorithm.new name sz) e).encoded = some e ∧
    (Digest.new (Algorithm.new name sz) e).algorithm = some name := by
  have hcolon : (":" : String).data = [':'] := rfl
  have hd : (Digest.new (Algorithm.new name sz) e).digest.data =
      name.data ++ ':' :: e.data := by
    show (name ++ ":" ++ e).data = _
    rw [stringDataAppend, stringDataAppend, hcolon, List.append_assoc]
    rfl
  constructor
  · unfold Digest.encoded
    rw [hd, splitAtColon_append _ _ h1]
    rfl
  · unfold Digest.algorithm
    rw [hd, splitAtColon_append _ _ h1]
    rfl

/-- C8 (witness): the round trip at sha256 with encoded segment abc. -/
theorem c8_roundtrip_witness :
    (':' ∉ ("sha256" : String).data) ∧ (("abc" : String) ≠ "") ∧
    (':' ∉ ("abc" : String).data) ∧
    (Digest.new (Algorithm.new "sha256" 256) "abc").encoded = some "abc" ∧
    (Digest.new (Algorithm.new "sha256" 256) "abc").algorithm = some "sha256" := by
  have h := c8_roundtrip "sha256" 256 "abc" (by decide) (by decide) (by decide)
  exact ⟨by decide, by decide, by decide, h.1, h.2⟩

/-- C9: blake3 is registered in the default registry and retrievable
through get_algorithm, yet every Digest whose algorithm component is
blake3 fails Digest::validate with the invalid algorithm error,
because the membership check admits only the three SHA-2 names. -/
theorem c9_blake3_registered_but_rejected (d : Digest)
    (h : d.algorithm = some BLAKE3) :
    Algorithms.new.get_algorithm BLAKE3 = some (Algorithm.new BLAKE3 256) ∧
    d.validate = some (Except.error "invalid checksum digest algorithm") := by
  refine ⟨by decide, ?_⟩
  unfold Digest.algorithm at h
  cases hsplit : splitAtColon d.digest.data with
  | none => rw [hsplit] at h; simp at h
  | some p =>
    obtain ⟨pre, post⟩ := p
    rw [hsplit] at h
    have hpre : String.mk pre = BLAKE3 := by simpa using h
    rw [validate_of_split d pre post hsplit]
    have hnot : ¬(String.mk pre = SHA256 ∨ String.mk pre = SHA384 ∨
        String.mk pre = SHA512) := by
      rw [hpre]
      decide
    rw [if_neg hnot]

/-- C9 (witness): the rejection at a concrete blake3 digest. -/
theorem c9_blake3_registered_but_rejected_witness :
    (Digest.algorithm ⟨"blake3", "blake3:abc"⟩ = some BLAKE3) ∧
    (Algorithms.new.get_algorithm BLAKE3 = some (Algorithm.new BLAKE3 256) ∧
     Digest.validate ⟨"blake3", "blake3:abc"⟩ =
       some (Except.error "invalid checksum digest algorithm")) :=
  ⟨by decide, c9_blake3_registered_but_rejected ⟨"blake3", "blake3:abc"⟩ (by decide)⟩

/-- C10: the default registry returns a blake3 descriptor that
reports itself available, yet its digester and hash capabilities
panic (none models the Unsupported algorithm panic) and set with
blake3 returns an error, so the streaming hasher is unreachable
without a panic for blake3. -/
theorem c10_blake3_streaming_unreachable :
    Algorithms.new.get_algorithm BLAKE3 = some (Algorithm.new BLAKE3 256) ∧
    (Algorithm.new BLAKE3 256).available = true ∧
    (Algorithm.new BLAKE3 256).digester = none ∧
    (Algorithm.new BLAKE3 256).hash = none ∧
    (Algorithm.new BLAKE3 256).set BLAKE3 = Except.error "Unsupported algorithm" := by
  refine ⟨by decide, rfl, ?_, ?_, rfl⟩
  · rfl
  · rfl

end ImageSpec
